import Mathlib

/-!
# PumiceWiki — authentication / authorization pipeline, shallow embedding

A shallow embedding, in Lean 4, of the auth/session/policy slice of the
PumiceWiki Go application, together with theorems settling the spec's
claims about it.

Embedded code:
* `internal/handler/auth_handler.go` — `handleCallback` (OIDC callback:
  CSRF-state check, token exchange, verification, claim parsing, role
  synchronization, session establishment);
* `internal/middleware/authz.go` — `Authorizer` (per-request gate);
* `internal/middleware/context.go` — `UserInfo`, `GetUserInfo`;
* the RBAC policy engine used through the Casbin library, whose model
  file (`auth_model.conf`) is not part of the repository sources and is
  therefore modelled from the spec (§4.3 of the spec): role-closure
  computation, the `keyMatch2` wildcard matcher, and `Enforce`.

Sessions are modelled as association lists of string keys to string
values with the scs manager's semantics (`GetString` of a missing key is
`""`); the OIDC provider (token exchange, verification) is an oracle
record, so every branch of the Go handler is reachable for some oracle.
-/

namespace PumiceWiki

/-- A session: the scs-managed per-visitor key/value state, modelled as an
association list from string keys to string values. -/
abbrev Session := List (String × String)

/-- `Manager.GetString`: the value stored under `key`, `""` when the key is
absent (the scs manager returns the zero value for a missing key). -/
def sessGetString : Session → String → String
  | [], _ => ""
  | kv :: rest, key => if kv.1 == key then kv.2 else sessGetString rest key

/-- `Manager.Put`: store `val` under `key`, replacing any previous value. -/
def sessPut (s : Session) (key val : String) : Session :=
  (s.filter (fun kv => kv.1 != key)) ++ [(key, val)]

/-- `Manager.Remove`: drop `key` from the session. -/
def sessRemove (s : Session) (key : String) : Session :=
  s.filter (fun kv => kv.1 != key)

/-- Whether the session holds an entry for `key`. -/
def sessHasKey (s : Session) (key : String) : Bool :=
  s.any (fun kv => kv.1 == key)

/-- The observable outcome the handler writes to the `http.ResponseWriter`:
`http.Error(..., StatusBadRequest)`, `http.Error(..., StatusInternalServerError)`
or `http.Redirect(..., StatusFound)`. -/
inductive HTTPResponse where
  | badRequest (body : String)
  | serverError (body : String)
  | redirect (location : String)
deriving DecidableEq, Repr

/-- The `oauth2.Token` returned by `Exchange`: only its `Extra("id_token")`
field is consumed by the handler; `none` models the failed type assertion
`oauth2Token.Extra("id_token").(string)`. -/
structure TokenBundle where
  idToken : Option String
deriving DecidableEq, Repr

/-- The verified `oidc.IDToken`: its `Subject` and the result of decoding the
custom claims struct (`roles: [{name}]`), flattened to the list of role
names; `Except.error` models a failing `idToken.Claims(&claims)` call. -/
structure IDToken where
  subject : String
  rolesClaim : Except String (List String)
deriving Repr

/-- The OIDC provider as seen by the callback handler: `Exchange` maps an
authorization code to a token bundle or an error, `Verify` maps a raw
id-token string to a verified token or an error.  An oracle record, so the
handler theorems quantify over every provider behaviour. -/
structure OIDCProvider where
  exchange : String → Except String TokenBundle
  verify : String → Except String IDToken

/-- A role edge `(u, r)`: `u` (a user or role) inherits role `r`
(Casbin grouping tuple `g, u, r`). -/
abbrev RoleEdges := List (String × String)

/-- `Enforcer.GetRolesForUser`: the direct (non-transitive) roles of `u`,
in edge order. -/
def getRolesForUser (edges : RoleEdges) (u : String) : List String :=
  (edges.filter (fun e => e.1 == u)).map (fun e => e.2)

/-- `Enforcer.DeleteRolesForUser`: remove every role edge whose user is `u`. -/
def deleteRolesForUser (edges : RoleEdges) (u : String) : RoleEdges :=
  edges.filter (fun e => e.1 != u)

/-- `Enforcer.AddRoleForUser`: add the edge `(u, r)` unless it is already
present (Casbin role addition is idempotent). -/
def addRoleForUser (edges : RoleEdges) (u r : String) : RoleEdges :=
  if (u, r) ∈ edges then edges else edges ++ [(u, r)]

/-- The state threaded through one `handleCallback` invocation: the HTTP
response produced, the session after the handler ran, and the role-edge set
of the shared enforcer after the handler ran. -/
structure CallbackResult where
  response : HTTPResponse
  session : Session
  edges : RoleEdges
deriving DecidableEq, Repr

/-- The tail of `AuthHandler.handleCallback` that runs once the CSRF state
has been validated and removed (`sess1` is the session after the removal):
exchange the code, extract and verify the id token, decode the role claims,
replace the subject's role edges, store the raw token and the subject in
the session and redirect to `/`.  Each failure is the corresponding
`http.Error(..., StatusInternalServerError)` of the Go source. -/
def callbackAfterState (p : OIDCProvider) (sess1 : Session) (edges : RoleEdges)
    (codeParam : String) : CallbackResult :=
  match p.exchange codeParam with
  | .error e => ⟨.serverError ("Failed to exchange token: " ++ e), sess1, edges⟩
  | .ok tok =>
    match tok.idToken with
    | none => ⟨.serverError "No id_token field in oauth2 token", sess1, edges⟩
    | some rawIDToken =>
      match p.verify rawIDToken with
      | .error e => ⟨.serverError ("Failed to verify ID Token: " ++ e), sess1, edges⟩
      | .ok idTok =>
        match idTok.rolesClaim with
        | .error e => ⟨.serverError ("Failed to parse claims: " ++ e), sess1, edges⟩
        | .ok roleNames =>
          let edges1 := deleteRolesForUser edges idTok.subject
          let edges2 := roleNames.foldl
            (fun es r => addRoleForUser es idTok.subject r) edges1
          let sess2 := sessPut sess1 "raw_id_token" rawIDToken
          let sess3 := sessPut sess2 "user_subject" idTok.subject
          ⟨.redirect "/", sess3, edges2⟩

/-- `AuthHandler.handleCallback` of `internal/handler/auth_handler.go`:
validate the CSRF `state` (stored value must be non-empty and equal to the
`state` query parameter), remove it from the session, then run the
post-validation tail `callbackAfterState`. -/
def handleCallback (p : OIDCProvider) (sess : Session) (edges : RoleEdges)
    (stateParam codeParam : String) : CallbackResult :=
  let state := sessGetString sess "state"
  if state == "" || stateParam != state then
    ⟨.badRequest "state did not match", sess, edges⟩
  else
    callbackAfterState p (sessRemove sess "state") edges codeParam

/-- A policy rule `p, sub, obj, act`: `sub` (a user or role) may perform
action `act` on resources matching pattern `obj`. -/
structure PolicyRule where
  sub : String
  obj : String
  act : String
deriving DecidableEq, Repr

/-- Modelled from the spec: the Casbin `keyMatch2` resource matcher named by
`internal/auth/casbin.go` lives in the Casbin library and the repository's
model file `auth_model.conf` is not among the sources; per the spec a
trailing `*` segment of the pattern matches any remaining path suffix,
otherwise the match is exact.  Character-list core of the matcher. -/
def km2Chars (key pat : List Char) : Bool :=
  if ['/', '*'].isSuffixOf pat then
    pat.dropLast.isPrefixOf key
  else key == pat

/-- Modelled from the spec: the resource wildcard matcher on strings —
`keyMatch2(key, pat)` is true when `pat` ends in a `/*` segment and the
pattern minus its final `*` is a prefix of `key`, or when `key` equals
`pat` exactly. -/
def keyMatch2 (key pat : String) : Bool :=
  km2Chars key.data pat.data

/-- Modelled from the spec: one step of the role-closure computation — add
the targets of every edge whose source is already in `acc` and whose target
is not yet (the closure "must track visited roles and stop revisiting
them"), deduplicated. -/
def expandOnce (edges : RoleEdges) (acc : List String) : List String :=
  acc ++ ((edges.filter (fun e => decide (e.1 ∈ acc) && decide (e.2 ∉ acc))).map
    (fun e => e.2)).dedup

/-- Modelled from the spec: the set of roles reachable from `subject` by
following role edges transitively, the subject itself included.  Iterating
`expandOnce` `edges.length + 1` times reaches the fixpoint, since each
productive step adds at least one of the at most `edges.length` distinct
edge targets. -/
def roleClosure (edges : RoleEdges) (subject : String) : List String :=
  (expandOnce edges)^[edges.length + 1] [subject]

/-- Modelled from the spec: the matching core of `Enforce` — some policy
rule has its subject in the role closure, its pattern matching the resource,
and its action equal to the request's action. -/
def enforceAllowed (rules : List PolicyRule) (edges : RoleEdges)
    (sub obj act : String) : Bool :=
  let cl := roleClosure edges sub
  rules.any (fun p => decide (p.sub ∈ cl) && keyMatch2 obj p.obj && p.act == act)

/-- Modelled from the spec: `Enforce(subject, resource, action)` of the
in-memory policy engine — a missing rule is a negative result, never an
error (default deny). -/
def Enforce (rules : List PolicyRule) (edges : RoleEdges)
    (sub obj act : String) : Except String Bool :=
  .ok (enforceAllowed rules edges sub obj act)

/-- `UserInfo` of `internal/middleware/context.go`, as consumed by the
`Authorizer` middleware: subject, direct roles and display name.  Go zero
values are `""` and the empty list. -/
structure UserInfo where
  Subject : String
  Roles : List String
  DisplayName : String
deriving DecidableEq, Repr

/-- `GetUserInfo` of `internal/middleware/context.go`: the request context
either carries an attached `*UserInfo` (`some`) or none; a missing value
yields the anonymous user. -/
def GetUserInfo : Option UserInfo → UserInfo
  | some ui => ui
  | none => { Subject := "anonymous", Roles := [], DisplayName := "" }

/-- `SetUserInfo` of `internal/middleware/context.go`: attach the value to
the request context. -/
def SetUserInfo (ui : UserInfo) : Option UserInfo :=
  some ui

/-- The enforcer operations the `Authorizer` middleware consumes
(`casbin.IEnforcer`): both can fail with an engine error. -/
structure EnforcerAPI where
  getRolesForUser : String → Except String (List String)
  enforce : String → String → String → Except String Bool

/-- What the middleware does with the request: fail 500, fail 403, or
forward it to the next handler with the enriched request context attached. -/
inductive AuthzOutcome where
  | serverError
  | forbidden
  | forwarded (ui : UserInfo)
deriving DecidableEq, Repr

/-- Subject resolution of `internal/middleware/authz.go`: the session's
`user_subject`, or `"anonymous"` when that is empty/absent. -/
def resolveSubject (sess : Session) : String :=
  let subject := sessGetString sess "user_subject"
  if subject == "" then "anonymous" else subject

/-- `Authorizer` of `internal/middleware/authz.go`: resolve the subject from
the session, fetch its direct roles (500 on error), attach the enriched
`UserInfo` context, enforce (500 on error, 403 on deny), and forward on
allow. -/
def Authorizer (e : EnforcerAPI) (sess : Session) (path method : String) :
    AuthzOutcome :=
  let subject := resolveSubject sess
  match e.getRolesForUser subject with
  | .error _ => .serverError
  | .ok roles =>
    let displayName := sessGetString sess "user_display_name"
    let ui : UserInfo :=
      { Subject := subject, Roles := roles, DisplayName := displayName }
    match e.enforce subject path method with
    | .error _ => .serverError
    | .ok allowed => if allowed then .forwarded ui else .forbidden

/-- The concrete policy engine as an `EnforcerAPI`: direct-role lookup and
`Enforce` over an in-memory rule/edge set; neither operation errs. -/
def engineOf (rules : List PolicyRule) (edges : RoleEdges) : EnforcerAPI :=
  { getRolesForUser := fun u => .ok (getRolesForUser edges u)
    enforce := fun sub obj act => Enforce rules edges sub obj act }

/-- A provider oracle for which every callback step succeeds: the exchange
yields a token bundle carrying a raw id token, and verification yields the
given subject with the given role-name claims. -/
def okProvider (subject : String) (roles : List String) : OIDCProvider :=
  { exchange := fun _ => .ok { idToken := some "raw-token" }
    verify := fun _ => .ok { subject := subject, rolesClaim := .ok roles } }

/-- A provider oracle whose token exchange fails. -/
def errProvider : OIDCProvider :=
  { exchange := fun _ => .error "provider unreachable"
    verify := fun _ => .error "bad signature" }

/-- The four post-validation failure shapes of the callback: the exchange
fails, the token bundle carries no `id_token`, verification fails, or the
claims cannot be decoded. -/
def CallbackStepFails (p : OIDCProvider) (codeParam : String) : Prop :=
  (∃ e, p.exchange codeParam = .error e) ∨
  (∃ tb, p.exchange codeParam = .ok tb ∧ tb.idToken = none) ∨
  (∃ tb raw e, p.exchange codeParam = .ok tb ∧ tb.idToken = some raw ∧
    p.verify raw = .error e) ∨
  (∃ tb raw tok e, p.exchange codeParam = .ok tb ∧ tb.idToken = some raw ∧
    p.verify raw = .ok tok ∧ tok.rolesClaim = .error e)

/-! ## Session-store lemmas -/

theorem sessRemove_cons_eq (kv : String × String) (rest : Session) (key : String)
    (h : kv.1 = key) : sessRemove (kv :: rest) key = sessRemove rest key := by
  simp [sessRemove, List.filter_cons, h]

theorem sessRemove_cons_ne (kv : String × String) (rest : Session) (key : String)
    (h : ¬ kv.1 = key) :
    sessRemove (kv :: rest) key = kv :: sessRemove rest key := by
  simp [sessRemove, List.filter_cons, h]

theorem sessPut_cons_eq (kv : String × String) (rest : Session) (key val : String)
    (h : kv.1 = key) : sessPut (kv :: rest) key val = sessPut rest key val := by
  simp [sessPut, List.filter_cons, h]

theorem sessPut_cons_ne (kv : String × String) (rest : Session) (key val : String)
    (h : ¬ kv.1 = key) :
    sessPut (kv :: rest) key val = kv :: sessPut rest key val := by
  simp [sessPut, List.filter_cons, h]

theorem sessGetString_remove_self (s : Session) (key : String) :
    sessGetString (sessRemove s key) key = "" := by
  induction s with
  | nil => rfl
  | cons kv rest ih =>
      by_cases h : kv.1 = key
      · rw [sessRemove_cons_eq kv rest key h]; exact ih
      · rw [sessRemove_cons_ne kv rest key h]
        simp [sessGetString, h, ih]

theorem sessGetString_remove_other (s : Session) (key other : String)
    (h : other ≠ key) :
    sessGetString (sessRemove s key) other = sessGetString s other := by
  induction s with
  | nil => rfl
  | cons kv rest ih =>
      by_cases hk : kv.1 = key
      · rw [sessRemove_cons_eq kv rest key hk, ih]
        have hko : ¬ kv.1 = other := by rw [hk]; exact Ne.symm h
        simp [sessGetString, hko]
      · rw [sessRemove_cons_ne kv rest key hk]
        by_cases ho : kv.1 = other
        · simp [sessGetString, ho]
        · simp [sessGetString, ho, ih]

theorem sessGetString_put_self (s : Session) (key val : String) :
    sessGetString (sessPut s key val) key = val := by
  induction s with
  | nil => simp [sessPut, sessGetString]
  | cons kv rest ih =>
      by_cases h : kv.1 = key
      · rw [sessPut_cons_eq kv rest key val h]; exact ih
      · rw [sessPut_cons_ne kv rest key val h]
        simp [sessGetString, h, ih]

theorem sessGetString_put_other (s : Session) (key val other : String)
    (h : other ≠ key) :
    sessGetString (sessPut s key val) other = sessGetString s other := by
  induction s with
  | nil => simp [sessPut, sessGetString, Ne.symm h]
  | cons kv rest ih =>
      by_cases hk : kv.1 = key
      · rw [sessPut_cons_eq kv rest key val hk, ih]
        have hko : ¬ kv.1 = other := by rw [hk]; exact Ne.symm h
        simp [sessGetString, hko]
      · rw [sessPut_cons_ne kv rest key val hk]
        by_cases ho : kv.1 = other
        · simp [sessGetString, ho]
        · simp [sessGetString, ho, ih]

/-! ## Callback: CSRF-state mismatch -/

/-- The mismatch branch of `handleCallback`: a stored state that is empty, or
different from the query parameter, produces the 400 response and returns
the session and edge set unchanged, whatever the provider does. -/
theorem handleCallback_mismatch (p : OIDCProvider) (sess : Session)
    (edges : RoleEdges) (stateParam codeParam : String)
    (h : sessGetString sess "state" = "" ∨ stateParam ≠ sessGetString sess "state") :
    handleCallback p sess edges stateParam codeParam =
      ⟨.badRequest "state did not match", sess, edges⟩ := by
  rcases h with h | h
  · simp [handleCallback, h]
  · simp [handleCallback, h]

/-- C9: a callback whose session-stored `state` is absent/empty or differs
from the request's `state` query parameter is answered with the 400 client
error, the session is returned as it was — in particular `user_subject` is
untouched — and the role edges are unchanged; the result does not depend on
the provider, so no token exchange is attempted. -/
theorem callback_state_mismatch_no_mutation (p : OIDCProvider) (sess : Session)
    (edges : RoleEdges) (stateParam codeParam : String)
    (h : sessGetString sess "state" = "" ∨ stateParam ≠ sessGetString sess "state") :
    handleCallback p sess edges stateParam codeParam =
      ⟨.badRequest "state did not match", sess, edges⟩ ∧
    sessGetString (handleCallback p sess edges stateParam codeParam).session
        "user_subject" = sessGetString sess "user_subject" := by
  have h1 := handleCallback_mismatch p sess edges stateParam codeParam h
  exact ⟨h1, by rw [h1]⟩

/-- C9, concretely: a callback with `state=abc` while the session holds
`state=xyz` is refused with the 400 response, and the session — with its
`user_subject` — is untouched. -/
theorem callback_state_mismatch_no_mutation_witness :
    handleCallback (okProvider "u1" ["editor"]) [("state", "xyz")] []
        "abc" "c" =
      ⟨.badRequest "state did not match", [("state", "xyz")], []⟩ ∧
    sessGetString (handleCallback (okProvider "u1" ["editor"]) [("state", "xyz")]
        [] "abc" "c").session "user_subject" =
      sessGetString [("state", "xyz")] "user_subject" :=
  callback_state_mismatch_no_mutation (okProvider "u1" ["editor"])
    [("state", "xyz")] [] "abc" "c" (Or.inr (by decide))

/-! ## Callback: matching state -/

/-- When the stored state equals the non-empty query state, `handleCallback`
removes the state and runs the post-validation tail. -/
theorem handleCallback_match (p : OIDCProvider) (sess : Session)
    (edges : RoleEdges) (stateParam codeParam : String)
    (hstored : sessGetString sess "state" = stateParam) (hne : stateParam ≠ "") :
    handleCallback p sess edges stateParam codeParam =
      callbackAfterState p (sessRemove sess "state") edges codeParam := by
  simp [handleCallback, hstored, hne]

/-- Whatever the provider answers, the post-validation tail never writes the
session key `state`: its value is the one of the incoming session. -/
theorem callbackAfterState_state_key (p : OIDCProvider) (sess1 : Session)
    (edges : RoleEdges) (codeParam : String) :
    sessGetString (callbackAfterState p sess1 edges codeParam).session "state" =
      sessGetString sess1 "state" := by
  cases hx : p.exchange codeParam with
  | error e => simp [callbackAfterState, hx]
  | ok tok =>
    cases hi : tok.idToken with
    | none => simp [callbackAfterState, hx, hi]
    | some raw =>
      cases hv : p.verify raw with
      | error e => simp [callbackAfterState, hx, hi, hv]
      | ok idTok =>
        cases hc : idTok.rolesClaim with
        | error e => simp [callbackAfterState, hx, hi, hv, hc]
        | ok roleNames =>
          simp only [callbackAfterState, hx, hi, hv, hc]
          rw [sessGetString_put_other _ _ _ _ (by decide),
            sessGetString_put_other _ _ _ _ (by decide)]

/-- C2: the CSRF state is single-use.  On a callback whose session-stored
`state` is non-empty and equal to the request's `state` query parameter, the
handler removes `state` from the session before the token exchange — so the
resulting session holds no `state`, whatever the provider answers — and a
second request replaying the exact same callback URL (same code and state)
against the resulting session is refused with the 400 `state did not match`
response, mutating neither the session nor the role edges (no second
login). -/
theorem callback_state_single_use (p : OIDCProvider) (sess : Session)
    (edges : RoleEdges) (stateParam codeParam : String)
    (hstored : sessGetString sess "state" = stateParam) (hne : stateParam ≠ "") :
    sessGetString (handleCallback p sess edges stateParam codeParam).session
        "state" = "" ∧
    handleCallback p (handleCallback p sess edges stateParam codeParam).session
        (handleCallback p sess edges stateParam codeParam).edges
        stateParam codeParam =
      ⟨.badRequest "state did not match",
        (handleCallback p sess edges stateParam codeParam).session,
        (handleCallback p sess edges stateParam codeParam).edges⟩ := by
  have hred := handleCallback_match p sess edges stateParam codeParam hstored hne
  have hstate : sessGetString
      (handleCallback p sess edges stateParam codeParam).session "state" = "" := by
    rw [hred, callbackAfterState_state_key, sessGetString_remove_self]
  exact ⟨hstate, handleCallback_mismatch _ _ _ _ _ (Or.inl hstate)⟩

/-- C2, concretely: after a successful callback with `state=abc`, the session
holds no `state` and replaying the same callback URL is refused with the 400
response, leaving session and edges unchanged. -/
theorem callback_state_single_use_witness :
    sessGetString (handleCallback (okProvider "u1" ["editor"])
        [("state", "abc")] [] "abc" "c").session "state" = "" ∧
    handleCallback (okProvider "u1" ["editor"])
        (handleCallback (okProvider "u1" ["editor"])
          [("state", "abc")] [] "abc" "c").session
        (handleCallback (okProvider "u1" ["editor"])
          [("state", "abc")] [] "abc" "c").edges "abc" "c" =
      ⟨.badRequest "state did not match",
        (handleCallback (okProvider "u1" ["editor"])
          [("state", "abc")] [] "abc" "c").session,
        (handleCallback (okProvider "u1" ["editor"])
          [("state", "abc")] [] "abc" "c").edges⟩ :=
  callback_state_single_use (okProvider "u1" ["editor"]) [("state", "abc")] []
    "abc" "c" (by decide) (by decide)

/-! ## Callback: post-validation failure -/

/-- When a post-validation step fails, the tail answers a server error and
returns the incoming session and edge set unchanged. -/
theorem callbackAfterState_failure (p : OIDCProvider) (sess1 : Session)
    (edges : RoleEdges) (codeParam : String)
    (hfail : CallbackStepFails p codeParam) :
    ∃ msg, callbackAfterState p sess1 edges codeParam =
      ⟨.serverError msg, sess1, edges⟩ := by
  rcases hfail with ⟨e, hx⟩ | ⟨tb, hx, hi⟩ | ⟨tb, raw, e, hx, hi, hv⟩
    | ⟨tb, raw, tok, e, hx, hi, hv, hc⟩
  · exact ⟨"Failed to exchange token: " ++ e, by simp [callbackAfterState, hx]⟩
  · exact ⟨"No id_token field in oauth2 token", by simp [callbackAfterState, hx, hi]⟩
  · exact ⟨"Failed to verify ID Token: " ++ e, by simp [callbackAfterState, hx, hi, hv]⟩
  · exact ⟨"Failed to parse claims: " ++ e, by simp [callbackAfterState, hx, hi, hv, hc]⟩

/-- C4: on a callback whose state validates but whose token exchange,
id-token extraction, verification or claim decoding fails, the handler
answers a 500-class server error, the session after the handler equals the
incoming one with only `state` removed — so `user_subject` and
`raw_id_token` keep their previous values — and no role edge is written. -/
theorem callback_failure_no_partial_commit (p : OIDCProvider) (sess : Session)
    (edges : RoleEdges) (stateParam codeParam : String)
    (hstored : sessGetString sess "state" = stateParam) (hne : stateParam ≠ "")
    (hfail : CallbackStepFails p codeParam) :
    (∃ msg, (handleCallback p sess edges stateParam codeParam).response =
      .serverError msg) ∧
    (handleCallback p sess edges stateParam codeParam).session =
      sessRemove sess "state" ∧
    (handleCallback p sess edges stateParam codeParam).edges = edges ∧
    sessGetString (handleCallback p sess edges stateParam codeParam).session
        "user_subject" = sessGetString sess "user_subject" ∧
    sessGetString (handleCallback p sess edges stateParam codeParam).session
        "raw_id_token" = sessGetString sess "raw_id_token" := by
  have hred := handleCallback_match p sess edges stateParam codeParam hstored hne
  obtain ⟨msg, hmsg⟩ :=
    callbackAfterState_failure p (sessRemove sess "state") edges codeParam hfail
  rw [hred, hmsg]
  refine ⟨⟨msg, rfl⟩, rfl, rfl, ?_, ?_⟩
  · exact sessGetString_remove_other sess "state" "user_subject" (by decide)
  · exact sessGetString_remove_other sess "state" "raw_id_token" (by decide)

/-- C4, concretely: a failing token exchange after a valid state check
answers a server error and leaves `user_subject`, `raw_id_token` and the
role edges untouched. -/
theorem callback_failure_no_partial_commit_witness :
    (∃ msg, (handleCallback errProvider [("state", "abc")]
      [("u1", "editor")] "abc" "c").response = .serverError msg) ∧
    (handleCallback errProvider [("state", "abc")]
      [("u1", "editor")] "abc" "c").session =
        sessRemove [("state", "abc")] "state" ∧
    (handleCallback errProvider [("state", "abc")]
      [("u1", "editor")] "abc" "c").edges = [("u1", "editor")] ∧
    sessGetString (handleCallback errProvider [("state", "abc")]
      [("u1", "editor")] "abc" "c").session "user_subject" =
        sessGetString [("state", "abc")] "user_subject" ∧
    sessGetString (handleCallback errProvider [("state", "abc")]
      [("u1", "editor")] "abc" "c").session "raw_id_token" =
        sessGetString [("state", "abc")] "raw_id_token" :=
  callback_failure_no_partial_commit errProvider [("state", "abc")]
    [("u1", "editor")] "abc" "c" (by decide) (by decide)
    (Or.inl ⟨"provider unreachable", rfl⟩)

/-! ## Callback: success path -/

/-- The shape of a fully successful callback: `state` removed, raw token and
subject stored, the subject's role edges replaced by the claimed ones. -/
theorem handleCallback_success (p : OIDCProvider) (sess : Session)
    (edges : RoleEdges) (stateParam codeParam : String) (tb : TokenBundle)
    (raw : String) (tok : IDToken) (roleNames : List String)
    (hstored : sessGetString sess "state" = stateParam) (hne : stateParam ≠ "")
    (hx : p.exchange codeParam = .ok tb) (hi : tb.idToken = some raw)
    (hv : p.verify raw = .ok tok) (hc : tok.rolesClaim = .ok roleNames) :
    handleCallback p sess edges stateParam codeParam =
      ⟨.redirect "/",
        sessPut (sessPut (sessRemove sess "state") "raw_id_token" raw)
          "user_subject" tok.subject,
        roleNames.foldl (fun es r => addRoleForUser es tok.subject r)
          (deleteRolesForUser edges tok.subject)⟩ := by
  rw [handleCallback_match p sess edges stateParam codeParam hstored hne]
  simp [callbackAfterState, hx, hi, hv, hc]

/-! ## Role-edge lemmas -/

theorem mem_getRolesForUser (edges : RoleEdges) (u r : String) :
    r ∈ getRolesForUser edges u ↔ (u, r) ∈ edges := by
  simp only [getRolesForUser, List.mem_map, List.mem_filter, beq_iff_eq]
  constructor
  · rintro ⟨⟨a, b⟩, ⟨hmem, h1⟩, h2⟩
    simp only at h1 h2
    rw [← h1, ← h2]
    exact hmem
  · intro hmem
    exact ⟨(u, r), ⟨hmem, rfl⟩, rfl⟩

theorem mem_deleteRolesForUser (edges : RoleEdges) (u : String)
    (e : String × String) :
    e ∈ deleteRolesForUser edges u ↔ e ∈ edges ∧ e.1 ≠ u := by
  simp [deleteRolesForUser, List.mem_filter]

theorem getRolesForUser_delete_self (edges : RoleEdges) (u : String) :
    getRolesForUser (deleteRolesForUser edges u) u = [] := by
  rw [getRolesForUser, List.filter_eq_nil_iff.mpr, List.map_nil]
  intro e he
  have := (mem_deleteRolesForUser edges u e).mp he
  simpa using this.2

theorem mem_addRoleForUser (es : RoleEdges) (s x : String)
    (e : String × String) :
    e ∈ addRoleForUser es s x ↔ e ∈ es ∨ e = (s, x) := by
  unfold addRoleForUser
  by_cases h : (s, x) ∈ es
  · simp only [h, if_true]
    constructor
    · exact Or.inl
    · rintro (he | he)
      · exact he
      · rw [he]; exact h
  · simp [h, List.mem_append]

theorem mem_foldl_addRole (R : List String) (s : String) (acc : RoleEdges)
    (e : String × String) :
    e ∈ R.foldl (fun es r => addRoleForUser es s r) acc ↔
      e ∈ acc ∨ (e.1 = s ∧ e.2 ∈ R) := by
  induction R generalizing acc with
  | nil => simp
  | cons x R' ih =>
      rw [List.foldl_cons, ih, mem_addRoleForUser]
      rcases e with ⟨a, b⟩
      simp only [List.mem_cons, Prod.mk.injEq]
      constructor
      · rintro ((he | ⟨h1, h2⟩) | ⟨h1, h2⟩)
        · exact Or.inl he
        · exact Or.inr ⟨h1, Or.inl h2⟩
        · exact Or.inr ⟨h1, Or.inr h2⟩
      · rintro (he | ⟨h1, h2 | h2⟩)
        · exact Or.inl (Or.inl he)
        · exact Or.inl (Or.inr ⟨h1, h2⟩)
        · exact Or.inr ⟨h1, h2⟩

theorem getRolesForUser_addRole_self (es : RoleEdges) (s x : String) :
    getRolesForUser (addRoleForUser es s x) s =
      if (s, x) ∈ es then getRolesForUser es s
      else getRolesForUser es s ++ [x] := by
  unfold addRoleForUser
  by_cases h : (s, x) ∈ es
  · simp [h]
  · simp [h, getRolesForUser, List.filter_append, List.map_append]

theorem nodup_getRoles_foldl (R : List String) (s : String) (acc : RoleEdges)
    (hnd : (getRolesForUser acc s).Nodup) :
    (getRolesForUser (R.foldl (fun es r => addRoleForUser es s r) acc)
      s).Nodup := by
  induction R generalizing acc with
  | nil => exact hnd
  | cons x R' ih =>
      rw [List.foldl_cons]
      apply ih
      rw [getRolesForUser_addRole_self]
      by_cases h : (s, x) ∈ acc
      · simpa [h] using hnd
      · simp only [h, if_false]
        refine List.Nodup.append hnd (List.nodup_singleton x) ?_
        intro a ha hax
        rw [List.mem_singleton] at hax
        rw [hax] at ha
        exact h ((mem_getRolesForUser acc s x).mp ha)

/-- C3: role synchronization is a full replace.  On every successful
callback for the token's subject with claimed role set `roleNames`, the
subject's direct role edges afterwards are exactly the claimed names — each
name one edge, no duplicates, and nothing of the subject's previous edges
survives unless re-claimed. -/
theorem callback_role_sync_full_replace (p : OIDCProvider) (sess : Session)
    (edges : RoleEdges) (stateParam codeParam : String) (tb : TokenBundle)
    (raw : String) (tok : IDToken) (roleNames : List String)
    (hstored : sessGetString sess "state" = stateParam) (hne : stateParam ≠ "")
    (hx : p.exchange codeParam = .ok tb) (hi : tb.idToken = some raw)
    (hv : p.verify raw = .ok tok) (hc : tok.rolesClaim = .ok roleNames) :
    (∀ r, r ∈ getRolesForUser
        (handleCallback p sess edges stateParam codeParam).edges tok.subject ↔
      r ∈ roleNames) ∧
    (getRolesForUser (handleCallback p sess edges stateParam codeParam).edges
      tok.subject).Nodup := by
  rw [handleCallback_success p sess edges stateParam codeParam tb raw tok
    roleNames hstored hne hx hi hv hc]
  constructor
  · intro r
    rw [mem_getRolesForUser, mem_foldl_addRole]
    simp only [true_and]
    constructor
    · rintro (hdel | hmem)
      · exact absurd rfl ((mem_deleteRolesForUser edges tok.subject _).mp hdel).2
      · exact hmem
    · exact Or.inr
  · apply nodup_getRoles_foldl
    rw [getRolesForUser_delete_self]
    exact List.nodup_nil

/-- C3, concretely: a subject previously holding roles `A` and `B` who logs
in with a token claiming only `A` ends up with direct roles exactly `A`. -/
theorem callback_role_sync_full_replace_witness :
    (∀ r, r ∈ getRolesForUser
        (handleCallback (okProvider "u1" ["A"]) [("state", "abc")]
          [("u1", "A"), ("u1", "B")] "abc" "c").edges "u1" ↔
      r ∈ ["A"]) ∧
    (getRolesForUser (handleCallback (okProvider "u1" ["A"]) [("state", "abc")]
      [("u1", "A"), ("u1", "B")] "abc" "c").edges "u1").Nodup :=
  callback_role_sync_full_replace (okProvider "u1" ["A"]) [("state", "abc")]
    [("u1", "A"), ("u1", "B")] "abc" "c" ⟨some "raw-token"⟩ "raw-token"
    ⟨"u1", .ok ["A"]⟩ ["A"] (by decide) (by decide) rfl rfl rfl rfl

/-! ## Session establishment (C5) -/

theorem sessHasKey_put_other (s : Session) (key val other : String)
    (h : other ≠ key) :
    sessHasKey (sessPut s key val) other = sessHasKey s other := by
  induction s with
  | nil => simp [sessPut, sessHasKey, Ne.symm h]
  | cons kv rest ih =>
      by_cases hk : kv.1 = key
      · rw [sessPut_cons_eq kv rest key val hk, ih]
        have hko : ¬ kv.1 = other := by rw [hk]; exact Ne.symm h
        simp [sessHasKey, List.any_cons, hko]
      · rw [sessPut_cons_ne kv rest key val hk]
        simp only [sessHasKey, List.any_cons] at ih ⊢
        rw [ih]

theorem sessHasKey_remove_other (s : Session) (key other : String)
    (h : other ≠ key) :
    sessHasKey (sessRemove s key) other = sessHasKey s other := by
  induction s with
  | nil => rfl
  | cons kv rest ih =>
      by_cases hk : kv.1 = key
      · rw [sessRemove_cons_eq kv rest key hk, ih]
        have hko : ¬ kv.1 = other := by rw [hk]; exact Ne.symm h
        simp [sessHasKey, List.any_cons, hko]
      · rw [sessRemove_cons_ne kv rest key hk]
        simp only [sessHasKey, List.any_cons] at ih ⊢
        rw [ih]

/-- C5 fails on the code: a fully successful callback redirects to `/` but
writes no `user_display_name` to the session — here a concrete successful
login whose resulting session holds no such key. -/
theorem callback_no_display_name_counterexample :
    (handleCallback (okProvider "u1" ["editor"]) [("state", "abc")] []
      "abc" "c").response = .redirect "/" ∧
    sessHasKey (handleCallback (okProvider "u1" ["editor"]) [("state", "abc")]
      [] "abc" "c").session "user_display_name" = false := by decide

/-- C5 as amended: on every successful callback the handler stores the raw
identity token (session key `raw_id_token`) and `user_subject` in the
session and responds with a redirect to `/`; `user_display_name` is not
written (its presence in the session is unchanged). -/
theorem callback_session_establishment (p : OIDCProvider) (sess : Session)
    (edges : RoleEdges) (stateParam codeParam : String) (tb : TokenBundle)
    (raw : String) (tok : IDToken) (roleNames : List String)
    (hstored : sessGetString sess "state" = stateParam) (hne : stateParam ≠ "")
    (hx : p.exchange codeParam = .ok tb) (hi : tb.idToken = some raw)
    (hv : p.verify raw = .ok tok) (hc : tok.rolesClaim = .ok roleNames) :
    (handleCallback p sess edges stateParam codeParam).response =
      .redirect "/" ∧
    sessGetString (handleCallback p sess edges stateParam codeParam).session
      "raw_id_token" = raw ∧
    sessGetString (handleCallback p sess edges stateParam codeParam).session
      "user_subject" = tok.subject ∧
    sessHasKey (handleCallback p sess edges stateParam codeParam).session
      "user_display_name" = sessHasKey sess "user_display_name" := by
  rw [handleCallback_success p sess edges stateParam codeParam tb raw tok
    roleNames hstored hne hx hi hv hc]
  refine ⟨rfl, ?_, ?_, ?_⟩
  · rw [sessGetString_put_other _ _ _ _ (by decide), sessGetString_put_self]
  · rw [sessGetString_put_self]
  · rw [sessHasKey_put_other _ _ _ _ (by decide),
      sessHasKey_put_other _ _ _ _ (by decide),
      sessHasKey_remove_other _ _ _ (by decide)]

/-- C5 as amended, concretely: a successful login stores the raw token and
the subject, redirects to `/`, and adds no `user_display_name`. -/
theorem callback_session_establishment_witness :
    (handleCallback (okProvider "u1" ["editor"]) [("state", "abc")] []
      "abc" "c").response = .redirect "/" ∧
    sessGetString (handleCallback (okProvider "u1" ["editor"])
      [("state", "abc")] [] "abc" "c").session "raw_id_token" = "raw-token" ∧
    sessGetString (handleCallback (okProvider "u1" ["editor"])
      [("state", "abc")] [] "abc" "c").session "user_subject" = "u1" ∧
    sessHasKey (handleCallback (okProvider "u1" ["editor"]) [("state", "abc")]
        [] "abc" "c").session "user_display_name" =
      sessHasKey [("state", "abc")] "user_display_name" :=
  callback_session_establishment (okProvider "u1" ["editor"]) [("state", "abc")]
    [] "abc" "c" ⟨some "raw-token"⟩ "raw-token" ⟨"u1", .ok ["editor"]⟩
    ["editor"] (by decide) (by decide) rfl rfl rfl rfl

/-! ## Request context (C10) -/

/-- C10: `GetUserInfo` is total and never yields an absent identity — on a
request context carrying no attached user info it returns the anonymous
`UserInfo`: subject `"anonymous"`, no roles, no display name. -/
theorem getUserInfo_default_anonymous :
    GetUserInfo none =
      { Subject := "anonymous", Roles := [], DisplayName := "" } := rfl

/-! ## Authorization middleware (C8) -/

/-- C8: the middleware's gate.  An empty/absent session `user_subject`
resolves to the anonymous principal; when the roles lookup for the resolved
subject succeeds, an `Enforce` engine error yields the 500-class response
and the request is not forwarded, `allowed = false` yields the 403-class
response and the request is not forwarded, and `allowed = true` forwards the
request — with the enriched user info — to the next handler. -/
theorem authorizer_gate (e : EnforcerAPI) (sess : Session)
    (path method : String) (roles : List String)
    (hroles : e.getRolesForUser (resolveSubject sess) = .ok roles) :
    (sessGetString sess "user_subject" = "" →
      resolveSubject sess = "anonymous") ∧
    (∀ err, e.enforce (resolveSubject sess) path method = .error err →
      Authorizer e sess path method = .serverError) ∧
    (e.enforce (resolveSubject sess) path method = .ok false →
      Authorizer e sess path method = .forbidden) ∧
    (e.enforce (resolveSubject sess) path method = .ok true →
      Authorizer e sess path method = .forwarded
        { Subject := resolveSubject sess, Roles := roles,
          DisplayName := sessGetString sess "user_display_name" }) := by
  refine ⟨fun h => by simp [resolveSubject, h], ?_, ?_, ?_⟩
  · intro err henf
    simp [Authorizer, hroles, henf]
  · intro henf
    simp [Authorizer, hroles, henf]
  · intro henf
    simp [Authorizer, hroles, henf]

/-- C8, concretely: with the empty session and the empty in-memory engine,
the subject resolves to `anonymous` and a request for `GET /edit/Home` is
denied with the 403-class outcome and not forwarded. -/
theorem authorizer_gate_witness :
    (sessGetString [] "user_subject" = "" →
      resolveSubject [] = "anonymous") ∧
    (∀ err, (engineOf [] []).enforce (resolveSubject []) "/edit/Home" "GET" =
        .error err →
      Authorizer (engineOf [] []) [] "/edit/Home" "GET" = .serverError) ∧
    ((engineOf [] []).enforce (resolveSubject []) "/edit/Home" "GET" =
        .ok false →
      Authorizer (engineOf [] []) [] "/edit/Home" "GET" = .forbidden) ∧
    ((engineOf [] []).enforce (resolveSubject []) "/edit/Home" "GET" =
        .ok true →
      Authorizer (engineOf [] []) [] "/edit/Home" "GET" = .forwarded
        { Subject := resolveSubject [], Roles := [],
          DisplayName := sessGetString [] "user_display_name" }) :=
  authorizer_gate (engineOf [] []) [] "/edit/Home" "GET" [] rfl

/-! ## Wildcard matcher (C6) -/

/-- C6: the resource wildcard matcher treats a trailing `*` segment as
matching any remaining path suffix — a rule on pattern `/view/*` matches
`/view/Home` and `/view/Any/Thing`, but matches neither `/viewX` nor
`/ed`. -/
theorem keyMatch2_trailing_wildcard :
    keyMatch2 "/view/Home" "/view/*" = true ∧
    keyMatch2 "/view/Any/Thing" "/view/*" = true ∧
    keyMatch2 "/viewX" "/view/*" = false ∧
    keyMatch2 "/ed" "/view/*" = false := by decide

/-! ## Role-closure lemmas (C1, C7) -/

theorem subset_expandOnce (edges : RoleEdges) (acc : List String) :
    acc ⊆ expandOnce edges acc :=
  List.subset_append_left _ _

theorem nodup_expandOnce {edges : RoleEdges} {acc : List String}
    (h : acc.Nodup) : (expandOnce edges acc).Nodup := by
  rw [expandOnce]
  refine List.Nodup.append h (List.nodup_dedup _) ?_
  intro x hx hx2
  rw [List.mem_dedup, List.mem_map] at hx2
  obtain ⟨e, he, rfl⟩ := hx2
  have hcond := (List.mem_filter.mp he).2
  simp only [Bool.and_eq_true, decide_eq_true_eq] at hcond
  exact hcond.2 hx

theorem expandOnce_subset {edges : RoleEdges} {acc base : List String}
    (hsub : acc ⊆ base) (htargets : ∀ e ∈ edges, e.2 ∈ base) :
    expandOnce edges acc ⊆ base := by
  intro x hx
  rw [expandOnce, List.mem_append] at hx
  rcases hx with hx | hx
  · exact hsub hx
  · rw [List.mem_dedup, List.mem_map] at hx
    obtain ⟨e, he, rfl⟩ := hx
    exact htargets e (List.mem_filter.mp he).1

theorem closed_of_expandOnce_eq {edges : RoleEdges} {acc : List String}
    (h : expandOnce edges acc = acc) {a b : String}
    (hab : (a, b) ∈ edges) (ha : a ∈ acc) : b ∈ acc := by
  by_contra hb
  have hfe : (a, b) ∈ edges.filter
      (fun e => decide (e.1 ∈ acc) && decide (e.2 ∉ acc)) := by
    rw [List.mem_filter]
    exact ⟨hab, by simp [ha, hb]⟩
  have hbmem : b ∈ ((edges.filter
      (fun e => decide (e.1 ∈ acc) && decide (e.2 ∉ acc))).map
      (fun e => e.2)).dedup := by
    rw [List.mem_dedup]
    exact List.mem_map_of_mem _ hfe
  have hnil : ((edges.filter
      (fun e => decide (e.1 ∈ acc) && decide (e.2 ∉ acc))).map
      (fun e => e.2)).dedup = [] := by
    have hlen := congrArg List.length h
    rw [expandOnce, List.length_append] at hlen
    exact List.eq_nil_of_length_eq_zero (by omega)
  rw [hnil] at hbmem
  exact absurd hbmem (List.not_mem_nil b)

theorem expandOnce_length_gt {edges : RoleEdges} {acc : List String}
    (h : expandOnce edges acc ≠ acc) :
    acc.length < (expandOnce edges acc).length := by
  rw [expandOnce] at h ⊢
  rw [List.length_append]
  have hl : ((edges.filter
      (fun e => decide (e.1 ∈ acc) && decide (e.2 ∉ acc))).map
      (fun e => e.2)).dedup ≠ [] := by
    intro hnil
    apply h
    rw [hnil, List.append_nil]
  have := List.length_pos.mpr hl
  omega

theorem iterate_expandOnce_nodup (edges : RoleEdges) (s : String) (n : ℕ) :
    ((expandOnce edges)^[n] [s]).Nodup := by
  induction n with
  | zero => simp
  | succ n ih =>
      rw [Function.iterate_succ_apply']
      exact nodup_expandOnce ih

theorem iterate_expandOnce_subset (edges : RoleEdges) (s : String) (n : ℕ) :
    (expandOnce edges)^[n] [s] ⊆ s :: edges.map (fun e => e.2) := by
  induction n with
  | zero =>
      intro x hx
      rw [Function.iterate_zero_apply] at hx
      rw [List.mem_singleton] at hx
      rw [hx]
      exact List.mem_cons_self _ _
  | succ n ih =>
      rw [Function.iterate_succ_apply']
      exact expandOnce_subset ih
        (fun e he => List.mem_cons_of_mem _ (List.mem_map_of_mem _ he))

theorem iterate_expandOnce_length_le (edges : RoleEdges) (s : String) (n : ℕ) :
    ((expandOnce edges)^[n] [s]).length ≤ edges.length + 1 := by
  have h := (iterate_expandOnce_nodup edges s n).subperm
    (iterate_expandOnce_subset edges s n)
  have := h.length_le
  simpa using this

/-- Iterating `expandOnce` `edges.length + 1` times saturates: the role
closure is a fixpoint of the expansion step. -/
theorem roleClosure_fixpoint (edges : RoleEdges) (s : String) :
    expandOnce edges (roleClosure edges s) = roleClosure edges s := by
  have key : ∃ j, j ≤ edges.length + 1 ∧
      expandOnce edges ((expandOnce edges)^[j] [s]) =
        (expandOnce edges)^[j] [s] := by
    by_contra hno
    push_neg at hno
    have grow : ∀ j, j ≤ edges.length + 1 →
        j + 1 ≤ ((expandOnce edges)^[j] [s]).length := by
      intro j
      induction j with
      | zero => intro _; simp
      | succ k ihk =>
          intro hk
          have hklt := ihk (Nat.le_of_succ_le hk)
          have hne := hno k (Nat.le_of_succ_le hk)
          have hgt := expandOnce_length_gt hne
          rw [Function.iterate_succ_apply']
          omega
    have h1 := grow (edges.length + 1) (Nat.le_refl _)
    have h2 := iterate_expandOnce_length_le edges s (edges.length + 1)
    omega
  obtain ⟨j, hj, hfix⟩ := key
  have hsplit : (expandOnce edges)^[edges.length + 1] [s] =
      (expandOnce edges)^[j] [s] := by
    have hn : edges.length + 1 = (edges.length + 1 - j) + j :=
      (Nat.sub_add_cancel hj).symm
    rw [hn, Function.iterate_add_apply, Function.iterate_fixed hfix]
  show expandOnce edges ((expandOnce edges)^[edges.length + 1] [s]) =
    (expandOnce edges)^[edges.length + 1] [s]
  rw [hsplit]
  exact hfix

theorem self_mem_roleClosure (edges : RoleEdges) (s : String) :
    s ∈ roleClosure edges s := by
  show s ∈ (expandOnce edges)^[edges.length + 1] [s]
  induction edges.length + 1 with
  | zero => simp
  | succ n ih =>
      rw [Function.iterate_succ_apply']
      exact subset_expandOnce edges _ ih

/-- The role closure is closed under following an edge. -/
theorem roleClosure_closed {edges : RoleEdges} {s a b : String}
    (hab : (a, b) ∈ edges) (ha : a ∈ roleClosure edges s) :
    b ∈ roleClosure edges s :=
  closed_of_expandOnce_eq (roleClosure_fixpoint edges s) hab ha

/-- The wildcard matcher accepts a pattern as its own resource. -/
theorem keyMatch2_refl (s : String) : keyMatch2 s s = true := by
  unfold keyMatch2 km2Chars
  by_cases h : (['/', '*'].isSuffixOf s.data : Bool)
  · simp only [h, if_true]
    rw [ List.isPrefixOf_iff_prefix]
    exact List.dropLast_prefix _
  · simp [h]

/-! ## Enforcement (C1, C7) -/

/-- C1: default deny.  When no policy rule has action `act`, a pattern
matching `obj`, and a subject in the inheritance closure of `sub` (the bare
subject included), `Enforce` answers `allowed = false` with no error. -/
theorem enforce_default_deny (rules : List PolicyRule) (edges : RoleEdges)
    (sub obj act : String)
    (h : ∀ p ∈ rules, ¬(p.sub ∈ roleClosure edges sub ∧
      keyMatch2 obj p.obj = true ∧ p.act = act)) :
    Enforce rules edges sub obj act = .ok false := by
  unfold Enforce enforceAllowed
  congr 1
  rw [List.any_eq_false]
  intro p hp
  have hnp := h p hp
  simp only [Bool.and_eq_true, decide_eq_true_eq, beq_iff_eq]
  rintro ⟨⟨h1, h2⟩, h3⟩
  exact hnp ⟨h1, h2, h3⟩

/-- C1, concretely: a subject with no roles and no rule of its own is denied
`GET /edit/Home` as a negative result, not an error. -/
theorem enforce_default_deny_witness :
    Enforce [⟨"editor", "/view/*", "GET"⟩] [] "alice" "/edit/Home" "GET" =
      .ok false :=
  enforce_default_deny [⟨"editor", "/view/*", "GET"⟩] [] "alice" "/edit/Home"
    "GET" (by decide)

/-- C7: inheritance is transitive in enforcement.  If role `A` inherits `B`,
`B` inherits `C`, a rule grants action `X` on resource `R` to `C`, and `s`'s
only direct role is `A`, then `Enforce(s, R, X)` allows. -/
theorem enforce_inheritance_transitive (rules : List PolicyRule)
    (edges : RoleEdges) (s A B C R X : String)
    (hdirect : getRolesForUser edges s = [A])
    (hAB : (A, B) ∈ edges) (hBC : (B, C) ∈ edges)
    (hrule : (⟨C, R, X⟩ : PolicyRule) ∈ rules) :
    Enforce rules edges s R X = .ok true := by
  have hsA : (s, A) ∈ edges := by
    have hmem : A ∈ getRolesForUser edges s := by
      rw [hdirect]
      exact List.mem_singleton_self A
    exact (mem_getRolesForUser edges s A).mp hmem
  have hA := roleClosure_closed hsA (self_mem_roleClosure edges s)
  have hB := roleClosure_closed hAB hA
  have hC := roleClosure_closed hBC hB
  unfold Enforce enforceAllowed
  congr 1
  rw [List.any_eq_true]
  refine ⟨⟨C, R, X⟩, hrule, ?_⟩
  simp [hC, keyMatch2_refl]

/-- C7, concretely: with edges `s → A → B → C` and a rule granting `C` the
action `GET` on `/r`, the subject `s` is allowed `GET /r`. -/
theorem enforce_inheritance_transitive_witness :
    Enforce [⟨"C", "/r", "GET"⟩] [("s", "A"), ("A", "B"), ("B", "C")]
      "s" "/r" "GET" = .ok true :=
  enforce_inheritance_transitive [⟨"C", "/r", "GET"⟩]
    [("s", "A"), ("A", "B"), ("B", "C")] "s" "A" "B" "C" "/r" "GET"
    (by decide) (by decide) (by decide) (by decide)

end PumiceWiki
